import Mathlib

/-!
Shallow embedding of `canvasoauthenticator/__init__.py` (class
`CanvasOAuthenticator`), the Canvas OAuth2 authenticator plugin.

Modelling choices:
* Python/JSON values are the inductive `PyVal` (`None`, `str`, `int`,
  `list`, `dict`); a Python dict is an association list with first-match
  lookup, matching Python dict semantics (keys are unique in real dicts).
* Python exceptions are `Except String`; the carried string plays the role
  of the exception message and is never inspected by the theorems.
* The network is a pure function `fetch : token → url → Page α` giving, for
  each bearer token and URL, the HTTP response (status code, decoded JSON
  body, and the optional `next` entry of the `Link` header).  The recursive
  coroutine `get_canvas_items` is embedded with explicit fuel: the result
  `Option.none` means the fuel ran out (the recursion did not terminate
  within the given depth), `some r` means the call finished with outcome `r`.
* Python `set` iteration order is implementation defined; sets are embedded
  as insertion-ordered duplicate-free lists (`List.dedup` for the
  enrollment-type set, conditional append for the group-name set).  No
  theorem below depends on a particular iteration order.
* `str.lower` is embedded as `String.toLower`/`Char.toLower` (ASCII case
  mapping); `repr` of a string does not escape quote characters.  Neither
  simplification is observable by any theorem below.
-/

namespace CanvasOAuth

/-- A Python/JSON value as it appears in Canvas API responses. -/
inductive PyVal where
  | none
  | str (s : String)
  | int (n : Int)
  | list (xs : List PyVal)
  | dict (fields : List (String × PyVal))

/-- A hashable Python value: the only values Python's `set` accepts here.
`set.add` raises `TypeError: unhashable type` on a `list` or `dict`. -/
inductive PyScalar where
  | none
  | str (s : String)
  | int (n : Int)
  deriving DecidableEq

def PyScalar.toPyVal : PyScalar → PyVal
  | .none => .none
  | .str s => .str s
  | .int n => .int n

/-- Python `v is None`. -/
def PyVal.isNone : PyVal → Bool
  | .none => true
  | _ => false

/-- `some` when the value is hashable (may be put in a Python `set`). -/
def PyVal.scalar? : PyVal → Option PyScalar
  | .none => some .none
  | .str s => some (.str s)
  | .int n => some (.int n)
  | _ => Option.none

mutual

/-- Python `repr` of a value (quote escaping inside strings not modelled). -/
def PyVal.pyRepr : PyVal → String
  | .none => "None"
  | .str s => "'" ++ s ++ "'"
  | .int n => toString n
  | .list xs => "[" ++ String.intercalate ", " (pyReprList xs) ++ "]"
  | .dict fs => "\x7b" ++ String.intercalate ", " (pyReprFields fs) ++ "\x7d"

def pyReprList : List PyVal → List String
  | [] => []
  | x :: xs => x.pyRepr :: pyReprList xs

def pyReprFields : List (String × PyVal) → List String
  | [] => []
  | (k, v) :: fs => ("'" ++ k ++ "': " ++ v.pyRepr) :: pyReprFields fs

end

/-- Python `str()` of a value. -/
def PyVal.pyStr : PyVal → String
  | .str s => s
  | v => v.pyRepr

/-- A Python dict with `PyVal` values. -/
abbrev PyDict := List (String × PyVal)

/-- Python `d.get(k)` / `d.get(k, None)`: the value at key `k`, if present. -/
def pyGet (d : PyDict) (k : String) : Option PyVal :=
  List.lookup k d

/-- Python `d.get(k, default)`. -/
def pyGetD (d : PyDict) (k : String) (v : PyVal) : PyVal :=
  (pyGet d k).getD v

/-- Python `k in d` (key containment test). -/
def hasKey (d : PyDict) (k : String) : Bool :=
  (pyGet d k).isSome

/-- Python `s.lower()` on a string (ASCII case mapping, character by
character). -/
def strLower (s : String) : String :=
  String.mk (s.data.map Char.toLower)

/-- Python `v.lower()`: succeeds exactly on strings; on `None` (and any
non-string) it raises `AttributeError`. -/
def pyLower : PyVal → Except String String
  | .str s => .ok (strLower s)
  | _ => .error "AttributeError: object has no attribute lower"

/-- `format_jupyterhub_group(*terms)`: `"::".join(map(str, terms))`. -/
def format_jupyterhub_group (terms : List PyVal) : String :=
  String.intercalate "::" (terms.map PyVal.pyStr)

/-- The value of `set(map(lambda x: x.get("type", None), enrollments))`
for the element list of one `enrollments` value, before de-duplication:
each element must be a dict (`x.get` else raises `AttributeError`) and the
extracted `type` value must be hashable (`set.add` else raises
`TypeError`). -/
def extractEnrollmentTypes : List PyVal → Except String (List PyScalar)
  | [] => .ok []
  | .dict d :: xs =>
    match (pyGetD d "type" .none).scalar? with
    | some t => (extractEnrollmentTypes xs).map (t :: ·)
    | Option.none => .error "TypeError: unhashable type"
  | _ :: _ => .error "AttributeError: object has no attribute get"

/-- The enrollment-type values of one course record:
`set(map(lambda x: x.get("type", None), course.get("enrollments", [])))`,
still in first-to-last order and with duplicates (the set view is taken
with `List.dedup` at the use site).  A non-list `enrollments` value raises:
`int`/`None` are not iterable, and iterating a non-empty string or dict
yields non-dict elements on which `.get` raises; empty strings and dicts
iterate to nothing, giving the empty set. -/
def courseEnrollmentTypes (course : PyDict) : Except String (List PyScalar) :=
  match pyGetD course "enrollments" (.list []) with
  | .list xs => extractEnrollmentTypes xs
  | .str s => if s.isEmpty then .ok [] else .error "AttributeError: object has no attribute get"
  | .dict fs => if fs.isEmpty then .ok [] else .error "AttributeError: object has no attribute get"
  | _ => .error "TypeError: object is not iterable"

/-- The group names contributed by one course record, in the order the
Python loop body appends them: `course::{course_id}` followed by
`course::{course_id}::enrollment_type::{enrollment_type}` for each distinct
enrollment type. -/
def courseGroupNames (cid : PyVal) (ts : List PyScalar) : List String :=
  format_jupyterhub_group [.str "course", cid] ::
    ts.dedup.map (fun t =>
      format_jupyterhub_group [.str "course", cid, .str "enrollment_type", t.toPyVal])

/-- The `for course in courses` loop of `groups_from_canvas_courses`, with
the accumulated `groups` list made explicit. -/
def coursesLoop (key : String) (acc : List String) : List PyDict → Except String (List String)
  | [] => .ok acc
  | course :: rest =>
    let cid := pyGetD course key .none
    if cid.isNone then coursesLoop key acc rest
    else
      match courseEnrollmentTypes course with
      | .error e => .error e
      | .ok ts => coursesLoop key (acc ++ courseGroupNames cid ts) rest

/-- `groups_from_canvas_courses(self, courses)`; `key` is the configured
`canvas_course_key`. -/
def groups_from_canvas_courses (key : String) (courses : List PyDict) :
    Except String (List String) :=
  coursesLoop key [] courses

/-- Spec-side per-record contribution for claim C4: a record whose course
key is absent or `None` contributes nothing; any other record contributes
`course::{course_id}` plus one name per distinct enrollment type. -/
def courseContrib (key : String) (course : PyDict) : Except String (List String) :=
  let cid := pyGetD course key .none
  if cid.isNone then .ok []
  else
    match courseEnrollmentTypes course with
    | .error e => .error e
    | .ok ts => .ok (courseGroupNames cid ts)

/-- Spec-side form for claim C4: the concatenation, in record order, of the
per-record contributions (the first raising record aborts the whole call). -/
def specCourseGroups (key : String) : List PyDict → Except String (List String)
  | [] => .ok []
  | c :: cs =>
    match courseContrib key c with
    | .error e => .error e
    | .ok g =>
      match specCourseGroups key cs with
      | .error e => .error e
      | .ok rest => .ok (g ++ rest)

/-- The `for group in self_groups` loop of `groups_from_canvas_groups`,
with the accumulated set made explicit as an insertion-ordered
duplicate-free list. -/
def groupsLoop (acc : List String) : List PyDict → Except String (List String)
  | [] => .ok acc
  | g :: rest =>
    if hasKey g "name" then
      let name := pyGetD g "name" .none
      match pyLower (pyGetD g "context_type" .none) with
      | .error e => .error e
      | .ok ct =>
        let cid := pyGetD g (ct ++ "_id") (.int 0)
        let s := format_jupyterhub_group [.str ct, cid, .str "group", name]
        groupsLoop (if s ∈ acc then acc else acc ++ [s]) rest
    else
      groupsLoop acc rest

/-- `groups_from_canvas_groups(self, self_groups)`. -/
def groups_from_canvas_groups (self_groups : List PyDict) :
    Except String (List String) :=
  groupsLoop [] self_groups

/-- One HTTP response in the Canvas pagination model: status code, decoded
JSON body, and the `next` entry of the `Link` header if present. -/
structure Page (α : Type) where
  status : Nat
  body : List α
  next : Option String

/-- `get_canvas_items(self, token, url)` with explicit recursion fuel.
`Option.none` means the fuel ran out; `some (.error e)` means the call
raised; `some (.ok items)` means it returned `items`. -/
def get_canvas_items (fetch : String → String → Page α) (token : String) :
    Nat → String → Option (Except String (List α))
  | 0, _ => Option.none
  | fuel + 1, url =>
    let r := fetch token url
    if r.status ≠ 200 then
      some (.error ("error fetching items " ++ url))
    else
      match r.next with
      | Option.none => some (.ok r.body)
      | some nextUrl =>
        match get_canvas_items fetch token fuel nextUrl with
        | Option.none => Option.none
        | some (.error e) => some (.error e)
        | some (.ok rest) => some (.ok (r.body ++ rest))

/-- The chain of URLs obtained by starting at `url` and repeatedly
following the `next` link, up to and including the first page with no
`next` link; `Option.none` if no such page is reached within `fuel`
steps (in particular when the `next` chain is cyclic). -/
def chainUrls (fetch : String → String → Page α) (token : String) :
    Nat → String → Option (List String)
  | 0, _ => Option.none
  | fuel + 1, url =>
    match (fetch token url).next with
    | Option.none => some [url]
    | some nextUrl => (chainUrls fetch token fuel nextUrl).map (url :: ·)

/-- The URLs `get_canvas_items` actually requests within the given fuel:
it follows `next` links but stops at the first non-200 page. -/
def visitedUrls (fetch : String → String → Page α) (token : String) :
    Nat → String → List String
  | 0, _ => []
  | fuel + 1, url =>
    let r := fetch token url
    if r.status ≠ 200 then [url]
    else
      match r.next with
      | Option.none => [url]
      | some nextUrl => url :: visitedUrls fetch token fuel nextUrl

/-- `get_courses(self, token)`: fetch `{canvas_url}/api/v1/courses`. -/
def get_courses (fetch : String → String → Page α) (canvas_url token : String)
    (fuel : Nat) : Option (Except String (List α)) :=
  get_canvas_items fetch token fuel (canvas_url ++ "/api/v1/courses")

/-- `get_self_groups(self, token)`: fetch `{canvas_url}/api/v1/users/self/groups`. -/
def get_self_groups (fetch : String → String → Page α) (canvas_url token : String)
    (fuel : Nat) : Option (Except String (List α)) :=
  get_canvas_items fetch token fuel (canvas_url ++ "/api/v1/users/self/groups")

/-- The user record returned by the base class `authenticate`: the access
token inside `auth_state`, an opaque payload standing for all other fields,
and the `groups` key (absent on the base record). -/
structure AuthUser (β : Type) where
  accessToken : String
  payload : β
  groups : Option (List String)

/-- `authenticate(self, handler, data)` after the `super().authenticate`
call: `user` is the base record, `fetch` the network, `manage_groups` the
configuration flag.  `Option.none` again means a pagination recursion ran
out of fuel. -/
def authenticate (fetch : String → String → Page PyDict)
    (canvas_url key : String) (manage_groups : Bool) (fuel : Nat)
    (user : AuthUser β) : Option (Except String (AuthUser β)) :=
  if manage_groups then
    match get_courses fetch canvas_url user.accessToken fuel with
    | Option.none => Option.none
    | some (.error e) => some (.error e)
    | some (.ok courses) =>
      match groups_from_canvas_courses key courses with
      | .error e => some (.error e)
      | .ok course_group_names =>
        match get_self_groups fetch canvas_url user.accessToken fuel with
        | Option.none => Option.none
        | some (.error e) => some (.error e)
        | some (.ok self_groups) =>
          match groups_from_canvas_groups self_groups with
          | .error e => some (.error e)
          | .ok self_group_names =>
            some (.ok { user with groups := some (course_group_names ++ self_group_names) })
  else
    some (.ok user)

/-- Python `s.split(sep)` for a one-character separator, on strings
modelled as character lists. -/
def pySplitOn (c : Char) : List Char → List (List Char)
  | [] => [[]]
  | x :: xs =>
    match pySplitOn c xs with
    | [] => [[]]
    | h :: t => if x = c then [] :: h :: t else (x :: h) :: t

/-- `normalize_username(self, username)` on strings modelled as character
lists: lowercase, then if `strip_email_domain` is set (non-empty) and the
lowercased name ends with `@` followed by it, return `username.split("@")[0]`. -/
def normalize_username (strip_email_domain username : List Char) : List Char :=
  let u := username.map Char.toLower
  if strip_email_domain ≠ [] ∧ ('@' :: strip_email_domain) <:+ u then
    (pySplitOn '@' u).headD []
  else
    u

/-- The attributes `__init__` computes when it does not raise. -/
structure CanvasConfig where
  token_url : String
  userdata_url : String
  extra_params : List (String × PyVal)

/-- `__init__(self, *args, **kwargs)` after the `super().__init__` call:
validates `canvas_url` and derives the token/userdata URLs and the extra
OAuth parameters. -/
def canvasOAuthInit (canvas_url client_id client_secret : String) :
    Except String CanvasConfig :=
  if canvas_url = "" then
    .error "ValueError: c.CanvasOAuthenticator.canvas_url must be set"
  else if canvas_url.back ≠ '/' then
    .error "ValueError: c.CanvasOAuthenticator.canvas_url must have a trailing slash"
  else
    .ok { token_url := canvas_url ++ "login/oauth2/token"
          userdata_url := canvas_url ++ "api/v1/users/self/profile"
          extra_params := [("client_id", .str client_id),
                           ("client_secret", .str client_secret),
                           ("replace_tokens", .int 1)] }

/-! ## Theorems -/

theorem pySplitOn_ne_nil (c : Char) : ∀ l : List Char, pySplitOn c l ≠ []
  | [] => by simp [pySplitOn]
  | x :: xs => by
    unfold pySplitOn
    cases h : pySplitOn c xs with
    | nil => simp
    | cons h t => by_cases hx : x = c <;> simp [hx]

theorem pySplitOn_headD (c : Char) :
    ∀ l : List Char, (pySplitOn c l).headD [] = l.takeWhile (fun x => x ≠ c)
  | [] => by simp [pySplitOn]
  | x :: xs => by
    have ih := pySplitOn_headD c xs
    unfold pySplitOn
    cases h : pySplitOn c xs with
    | nil => exact absurd h (pySplitOn_ne_nil c xs)
    | cons hd t =>
      rw [h] at ih
      simp only [List.headD] at ih
      by_cases hx : x = c <;> simp [hx, List.takeWhile, ih]

/-- C8: `normalize_username` first lowercases the input; when
`strip_email_domain` is non-empty and the lowercased string ends with `@`
followed by it, the result is the portion of the lowercased string before
the first `@`; otherwise it is the lowercased string unchanged. -/
theorem normalize_username_spec (strip_email_domain username : List Char) :
    normalize_username strip_email_domain username =
      (let u := username.map Char.toLower
       if strip_email_domain ≠ [] ∧ ('@' :: strip_email_domain) <:+ u then
         u.takeWhile (fun x => x ≠ '@')
       else u) := by
  unfold normalize_username
  dsimp only
  by_cases h : strip_email_domain ≠ [] ∧
      ('@' :: strip_email_domain) <:+ List.map Char.toLower username
  · rw [if_pos h, if_pos h, pySplitOn_headD]
  · rw [if_neg h, if_neg h]

/-- C9: the constructor raises exactly when `canvas_url` is empty or does
not end in `/`; on success `token_url` and `userdata_url` are `canvas_url`
with the respective fixed paths appended. -/
theorem canvasOAuthInit_spec (canvas_url client_id client_secret : String) :
    ((∃ e, canvasOAuthInit canvas_url client_id client_secret = .error e) ↔
       (canvas_url = "" ∨ canvas_url.back ≠ '/')) ∧
    (∀ cfg, canvasOAuthInit canvas_url client_id client_secret = .ok cfg →
       cfg.token_url = canvas_url ++ "login/oauth2/token" ∧
       cfg.userdata_url = canvas_url ++ "api/v1/users/self/profile") := by
  unfold canvasOAuthInit
  by_cases h1 : canvas_url = ""
  · simp [h1]
  · by_cases h2 : canvas_url.back = '/'
    · constructor
      · simp [h1, h2]
      · intro cfg hcfg
        rw [if_neg h1, if_neg (by simp [h2])] at hcfg
        injection hcfg with h
        subst h
        exact ⟨rfl, rfl⟩
    · simp [h1, h2]

theorem canvasOAuthInit_spec_witness :
    (⟨"https://c/login/oauth2/token", "https://c/api/v1/users/self/profile",
      [("client_id", .str "i"), ("client_secret", .str "s"),
       ("replace_tokens", .int 1)]⟩ : CanvasConfig).token_url =
        "https://c/" ++ "login/oauth2/token" ∧
    (⟨"https://c/login/oauth2/token", "https://c/api/v1/users/self/profile",
      [("client_id", .str "i"), ("client_secret", .str "s"),
       ("replace_tokens", .int 1)]⟩ : CanvasConfig).userdata_url =
        "https://c/" ++ "api/v1/users/self/profile" :=
  (canvasOAuthInit_spec "https://c/" "i" "s").2 _ (by rfl)

theorem visitedUrls_succ (fetch : String → String → Page α) (token : String)
    (n : Nat) (url : String) :
    visitedUrls fetch token (n + 1) url =
      (if (fetch token url).status ≠ 200 then [url]
       else
         match (fetch token url).next with
         | Option.none => [url]
         | some nextUrl => url :: visitedUrls fetch token n nextUrl) := rfl

/-- C2: when the `next` chain from the starting URL is finite and every
page on it answers 200, `get_canvas_items` returns the concatenation, in
page order, of the body item lists of every page on the chain. -/
theorem get_canvas_items_concat (fetch : String → String → Page α) (token : String) :
    ∀ (fuel : Nat) (url : String) (us : List String),
      chainUrls fetch token fuel url = some us →
      (∀ u ∈ us, (fetch token u).status = 200) →
      get_canvas_items fetch token fuel url =
        some (.ok (us.flatMap (fun u => (fetch token u).body))) := by
  intro fuel
  induction fuel with
  | zero => intro url us h; simp [chainUrls] at h
  | succ n ih =>
    intro url us hchain hstatus
    unfold chainUrls at hchain
    unfold get_canvas_items
    cases hn : (fetch token url).next with
    | none =>
      rw [hn] at hchain
      dsimp only at hchain
      injection hchain with h
      subst h
      have h200 : (fetch token url).status = 200 := hstatus url (by simp)
      simp [h200, hn]
    | some nextUrl =>
      rw [hn] at hchain
      dsimp only at hchain
      cases hrec : chainUrls fetch token n nextUrl with
      | none => rw [hrec] at hchain; simp at hchain
      | some us2 =>
        rw [hrec] at hchain
        simp only [Option.map] at hchain
        injection hchain with h
        subst h
        have h200 : (fetch token url).status = 200 := hstatus url (by simp)
        have ih2 := ih nextUrl us2 hrec (fun u hu => hstatus u (by simp [hu]))
        simp [h200, hn, ih2]

theorem get_canvas_items_concat_witness :
    get_canvas_items
      (fun _ u => if u = "a" then ⟨200, [1, 2], some "b"⟩ else ⟨200, [3], Option.none⟩)
      "t" 3 "a" = some (.ok [1, 2, 3]) :=
  get_canvas_items_concat
    (fun _ u => if u = "a" then ⟨200, [1, 2], some "b"⟩ else ⟨200, [3], Option.none⟩)
    "t" 3 "a" ["a", "b"] (by rfl) (by decide)

/-- C3: whenever `get_canvas_items` finishes within its fuel, it raises an
exception exactly when some page it fetched answered with a status other
than 200; a run over all-200 pages returns normally. -/
theorem get_canvas_items_error_iff (fetch : String → String → Page α) (token : String) :
    ∀ (fuel : Nat) (url : String) (r : Except String (List α)),
      get_canvas_items fetch token fuel url = some r →
      ((∃ e, r = .error e) ↔
        ∃ u ∈ visitedUrls fetch token fuel url, (fetch token u).status ≠ 200) := by
  intro fuel
  induction fuel with
  | zero => intro url r h; simp [get_canvas_items] at h
  | succ n ih =>
    intro url r hr
    unfold get_canvas_items at hr
    by_cases h200 : (fetch token url).status = 200
    · rw [if_neg (by simp [h200])] at hr
      cases hn : (fetch token url).next with
      | none =>
        rw [hn] at hr
        dsimp only at hr
        injection hr with h
        subst h
        have hvis : visitedUrls fetch token (n + 1) url = [url] := by
          rw [visitedUrls_succ]; simp [h200, hn]
        rw [hvis]
        simp [h200]
      | some nextUrl =>
        rw [hn] at hr
        dsimp only at hr
        have hvis : visitedUrls fetch token (n + 1) url =
            url :: visitedUrls fetch token n nextUrl := by
          rw [visitedUrls_succ]; simp [h200, hn]
        rw [hvis]
        cases hrec : get_canvas_items fetch token n nextUrl with
        | none => rw [hrec] at hr; simp at hr
        | some r2 =>
          rw [hrec] at hr
          have ih2 := ih nextUrl r2 hrec
          cases r2 with
          | error e =>
            dsimp only at hr
            injection hr with h
            subst h
            constructor
            · intro _
              rcases ih2.1 ⟨e, rfl⟩ with ⟨u, hu, hbad⟩
              exact ⟨u, by simp [hu], hbad⟩
            · intro _; exact ⟨e, rfl⟩
          | ok items =>
            dsimp only at hr
            injection hr with h
            subst h
            constructor
            · rintro ⟨e, he⟩; exact absurd he (by simp)
            · rintro ⟨u, hu, hbad⟩
              rcases List.mem_cons.1 hu with hu | hu
              · exact absurd (hu ▸ hbad) (by simp [h200])
              · exact absurd (ih2.2 ⟨u, hu, hbad⟩) (by rintro ⟨e, he⟩; simp at he)
    · rw [if_pos (by simp [h200])] at hr
      injection hr with h
      subst h
      have hvis : visitedUrls fetch token (n + 1) url = [url] := by
        rw [visitedUrls_succ]; simp [h200]
      rw [hvis]
      simp [h200]

theorem get_canvas_items_error_iff_witness :
    (∃ e, (Except.error ("error fetching items " ++ "b") : Except String (List Nat)) =
        .error e) ↔
      ∃ u ∈ visitedUrls
          (fun _ u => if u = "a" then (⟨200, [1], some "b"⟩ : Page Nat) else ⟨404, [], Option.none⟩)
          "t" 2 "a",
        ((fun (_ : String) u => if u = "a" then (⟨200, [1], some "b"⟩ : Page Nat) else ⟨404, [], Option.none⟩)
          "t" u).status ≠ 200 :=
  get_canvas_items_error_iff
    (fun _ u => if u = "a" then ⟨200, [1], some "b"⟩ else ⟨404, [], Option.none⟩)
    "t" 2 "a" (.error ("error fetching items " ++ "b")) (by rfl)

/-- C6: if the `next` chain from the starting URL is finite — it reaches a
page with no `next` link within the given depth — then `get_canvas_items`
terminates (returns a result rather than running out of fuel), for every
token and URL. -/
theorem get_canvas_items_terminates (fetch : String → String → Page α) (token : String) :
    ∀ (fuel : Nat) (url : String) (us : List String),
      chainUrls fetch token fuel url = some us →
      (get_canvas_items fetch token fuel url).isSome := by
  intro fuel
  induction fuel with
  | zero => intro url us h; simp [chainUrls] at h
  | succ n ih =>
    intro url us hchain
    unfold chainUrls at hchain
    unfold get_canvas_items
    by_cases h200 : (fetch token url).status = 200
    · rw [if_neg (by simp [h200])]
      cases hn : (fetch token url).next with
      | none => simp
      | some nextUrl =>
        dsimp only
        rw [hn] at hchain
        dsimp only at hchain
        cases hrec : chainUrls fetch token n nextUrl with
        | none => rw [hrec] at hchain; simp at hchain
        | some us2 =>
          have hterm := ih nextUrl us2 hrec
          cases hg : get_canvas_items fetch token n nextUrl with
          | none => rw [hg] at hterm; simp at hterm
          | some r => cases r <;> simp [hg]
    · rw [if_pos (by simp [h200])]
      simp

theorem get_canvas_items_terminates_witness :
    (get_canvas_items
      (fun _ u => if u = "a" then (⟨200, [1, 2], some "b"⟩ : Page Nat) else ⟨200, [3], Option.none⟩)
      "t" 3 "a").isSome :=
  get_canvas_items_terminates
    (fun _ u => if u = "a" then ⟨200, [1, 2], some "b"⟩ else ⟨200, [3], Option.none⟩)
    "t" 3 "a" ["a", "b"] (by rfl)

theorem coursesLoop_eq (key : String) :
    ∀ (cs : List PyDict) (acc : List String),
      coursesLoop key acc cs = (specCourseGroups key cs).map (acc ++ ·) := by
  intro cs
  induction cs with
  | nil => intro acc; simp [coursesLoop, specCourseGroups, Except.map]
  | cons c cs ih =>
    intro acc
    by_cases hnone : (pyGetD c key .none).isNone
    · rw [show coursesLoop key acc (c :: cs) = coursesLoop key acc cs by
        simp [coursesLoop, hnone]]
      rw [ih]
      cases h : specCourseGroups key cs <;>
        simp [specCourseGroups, courseContrib, hnone, Except.map, h]
    · cases het : courseEnrollmentTypes c with
      | error e =>
        simp [coursesLoop, specCourseGroups, courseContrib, hnone, het, Except.map]
      | ok ts =>
        rw [show coursesLoop key acc (c :: cs) =
            coursesLoop key (acc ++ courseGroupNames (pyGetD c key .none) ts) cs by
          simp [coursesLoop, hnone, het]]
        rw [ih]
        cases h : specCourseGroups key cs <;>
          simp [specCourseGroups, courseContrib, hnone, het, Except.map, h]

/-- C4: `groups_from_canvas_courses` is the concatenation, in record order,
of per-record contributions: a record whose course key is absent or `None`
contributes nothing, and any other record contributes `course::{course_id}`
plus `course::{course_id}::enrollment_type::{type}` for each distinct
enrollment type of its `enrollments` list. -/
theorem groups_from_canvas_courses_spec (key : String) (courses : List PyDict) :
    groups_from_canvas_courses key courses = specCourseGroups key courses := by
  rw [groups_from_canvas_courses, coursesLoop_eq]
  cases h : specCourseGroups key courses <;> simp [Except.map, h]

theorem groupsLoop_nodup :
    ∀ (gs : List PyDict) (acc l : List String),
      acc.Nodup → groupsLoop acc gs = .ok l → l.Nodup := by
  intro gs
  induction gs with
  | nil =>
    intro acc l hacc h
    injection h with h
    subst h
    exact hacc
  | cons g gs ih =>
    intro acc l hacc h
    unfold groupsLoop at h
    by_cases hname : hasKey g "name"
    · rw [if_pos hname] at h
      cases hl : pyLower (pyGetD g "context_type" .none) with
      | error e =>
        rw [hl] at h
        exact absurd h (by simp)
      | ok ct =>
        rw [hl] at h
        dsimp only at h
        refine ih _ l ?_ h
        by_cases hmem :
            format_jupyterhub_group
              [.str ct, pyGetD g (ct ++ "_id") (.int 0), .str "group",
               pyGetD g "name" .none] ∈ acc
        · simpa [hmem] using hacc
        · simp only [hmem, if_false]
          rw [List.nodup_append]
          exact ⟨hacc, List.nodup_singleton _, by simpa using hmem⟩
    · rw [if_neg hname] at h
      exact ih acc l hacc h

/-- C5: a list returned by `groups_from_canvas_groups` contains no
duplicate group names, even when several input records format to the same
name. -/
theorem groups_from_canvas_groups_nodup (self_groups : List PyDict) (l : List String) :
    groups_from_canvas_groups self_groups = .ok l → l.Nodup :=
  groupsLoop_nodup self_groups [] l List.nodup_nil

theorem groups_from_canvas_groups_nodup_witness :
    (["course::1::group::g"] : List String).Nodup :=
  groups_from_canvas_groups_nodup
    [[("name", .str "g"), ("context_type", .str "Course"), ("course_id", .int 1)],
     [("name", .str "g"), ("context_type", .str "Course"), ("course_id", .int 1)]]
    ["course::1::group::g"] (by rfl)

theorem groupsLoop_error_of_missing_context :
    ∀ (gs : List PyDict) (acc : List String),
      (∃ g ∈ gs, hasKey g "name" = true ∧ hasKey g "context_type" = false) →
      ∃ e, groupsLoop acc gs = .error e := by
  intro gs
  induction gs with
  | nil => rintro acc ⟨g, hg, -⟩; simp at hg
  | cons g gs ih =>
    rintro acc ⟨g0, hg0, hnm, hct⟩
    rcases List.mem_cons.1 hg0 with rfl | hmem
    · have hctx : pyGetD g0 "context_type" .none = .none := by
        unfold pyGetD
        cases hx : pyGet g0 "context_type" with
        | none => rfl
        | some v => rw [hasKey, hx] at hct; simp at hct
      unfold groupsLoop
      rw [if_pos hnm, hctx]
      exact ⟨_, rfl⟩
    · unfold groupsLoop
      by_cases hname : hasKey g "name"
      · rw [if_pos hname]
        cases hl : pyLower (pyGetD g "context_type" .none) with
        | error e => exact ⟨e, rfl⟩
        | ok ct =>
          dsimp only
          exact ih _ ⟨g0, hmem, hnm, hct⟩
      · rw [if_neg hname]
        exact ih _ ⟨g0, hmem, hnm, hct⟩

/-- C10: a record with a `name` key but no `context_type` key makes
`groups_from_canvas_groups` raise (`None.lower()`) instead of being
skipped, while a record missing only its context id field is handled by
defaulting the id to `0`. -/
theorem groups_from_canvas_groups_safety :
    (∀ gs : List PyDict,
       (∃ g ∈ gs, hasKey g "name" = true ∧ hasKey g "context_type" = false) →
       ∃ e, groups_from_canvas_groups gs = .error e) ∧
    (∀ (g : PyDict) (ct : String) (nv : PyVal),
       pyGet g "name" = some nv →
       pyGet g "context_type" = some (.str ct) →
       pyGet g (strLower ct ++ "_id") = Option.none →
       groups_from_canvas_groups [g] =
         .ok [format_jupyterhub_group
                [.str (strLower ct), .int 0, .str "group", nv]]) := by
  constructor
  · intro gs h
    exact groupsLoop_error_of_missing_context gs [] h
  · intro g ct nv h1 h2 h3
    unfold groups_from_canvas_groups groupsLoop
    rw [if_pos (by rw [hasKey, h1]; rfl)]
    rw [show pyGetD g "context_type" .none = .str ct by rw [pyGetD, h2]; rfl]
    dsimp only [pyLower]
    rw [show pyGetD g (strLower ct ++ "_id") (.int 0) = .int 0 by
      rw [pyGetD, h3]; rfl]
    rw [show pyGetD g "name" .none = nv by rw [pyGetD, h1]; rfl]
    simp [groupsLoop]

theorem groups_from_canvas_groups_safety_witness :
    (∃ e, groups_from_canvas_groups [[("name", PyVal.str "g")]] = .error e) ∧
    groups_from_canvas_groups
        [[("name", PyVal.str "g"), ("context_type", PyVal.str "Course")]] =
      .ok [format_jupyterhub_group
             [.str "course", .int 0, .str "group", .str "g"]] :=
  ⟨groups_from_canvas_groups_safety.1 _
     ⟨[("name", PyVal.str "g")], by simp, by rfl, by rfl⟩,
   groups_from_canvas_groups_safety.2
     [("name", PyVal.str "g"), ("context_type", PyVal.str "Course")]
     "Course" (.str "g") (by rfl) (by rfl) (by rfl)⟩

/-- C1: when `manage_groups` is enabled and every stage succeeds,
`authenticate` returns the base user record with its `groups` field set to
the course-derived group names followed by the canvas-group-derived group
names. -/
theorem authenticate_sets_groups (fetch : String → String → Page PyDict)
    (canvas_url key : String) (fuel : Nat) (user : AuthUser β)
    (courses self_groups : List PyDict) (cg gg : List String) :
    get_courses fetch canvas_url user.accessToken fuel = some (.ok courses) →
    groups_from_canvas_courses key courses = .ok cg →
    get_self_groups fetch canvas_url user.accessToken fuel = some (.ok self_groups) →
    groups_from_canvas_groups self_groups = .ok gg →
    authenticate fetch canvas_url key true fuel user =
      some (.ok { user with groups := some (cg ++ gg) }) := by
  intro h1 h2 h3 h4
  unfold authenticate
  rw [if_pos rfl, h1]
  dsimp only
  rw [h2]
  dsimp only
  rw [h3]
  dsimp only
  rw [h4]

theorem authenticate_sets_groups_witness :
    authenticate
      (fun _ u =>
        if u = "c//api/v1/courses" then ⟨200, [[("id", .int 1)]], Option.none⟩
        else ⟨200, [[("name", .str "g"), ("context_type", .str "Course"),
                     ("course_id", .int 2)]], Option.none⟩)
      "c/" "id" true 1 (⟨"tok", (), Option.none⟩ : AuthUser Unit) =
      some (.ok ⟨"tok", (), some (["course::1"] ++ ["course::2::group::g"])⟩) :=
  authenticate_sets_groups
    (fun _ u =>
      if u = "c//api/v1/courses" then ⟨200, [[("id", .int 1)]], Option.none⟩
      else ⟨200, [[("name", .str "g"), ("context_type", .str "Course"),
                   ("course_id", .int 2)]], Option.none⟩)
    "c/" "id" 1 (⟨"tok", (), Option.none⟩ : AuthUser Unit)
    [[("id", .int 1)]]
    [[("name", .str "g"), ("context_type", .str "Course"), ("course_id", .int 2)]]
    ["course::1"] ["course::2::group::g"]
    (by rfl) (by rfl) (by rfl) (by rfl)

end CanvasOAuth
